import Mathlib

/-!
Verification of the grid movement / script interpretation core of the
gmtk-2024 puzzle platformer.  The definitions below are a shallow embedding
of the Rust sources: `src/demo/action.rs`, `src/demo/animation.rs`,
`src/demo/level.rs`, `src/demo/player.rs`, `src/demo/editor.rs` and
`src/demo/obstacle.rs`.  Machine integers (`i32`, `usize`) are modelled by
`Int` / `Nat` (the quantities involved are tiny, far from overflow), bevy's
`IVec2` by a two-field structure, `HashSet`/`HashMap` by association lists
queried through `List` membership / `List.find?`, and fallible operations by
`Option`.
-/

namespace Gmtk

/-- Embeds bevy's `IVec2`: a 2d integer vector. -/
structure IVec2 where
  x : Int
  y : Int
deriving DecidableEq, Repr

instance : Add IVec2 :=
  ⟨fun a b => ⟨a.x + b.x, a.y + b.y⟩⟩

/-- Componentwise product, as for glam's `IVec2` `Mul` impl. -/
instance : Mul IVec2 :=
  ⟨fun a b => ⟨a.x * b.x, a.y * b.y⟩⟩

/-- `IVec2::ZERO`. -/
def IVec2.zero : IVec2 := ⟨0, 0⟩

/-- `const UP` from action.rs. -/
def UP : IVec2 := ⟨0, 1⟩

/-- `const DOWN` from action.rs. -/
def DOWN : IVec2 := ⟨0, -1⟩

/-- `const LEFT` from action.rs. -/
def LEFT : IVec2 := ⟨-1, 0⟩

/-- `const RIGHT` from action.rs. -/
def RIGHT : IVec2 := ⟨1, 0⟩

/-- The script command enumeration.  Its variants are enumerated exhaustively
by `EditorAssets::get_atlas_index` in editor.rs and by the key/command map in
`edit_script`. -/
inductive ScriptCommand where
  | Walk
  | Climb
  | Drop
  | Idle
  | Turn
  | Jump
  | OpenBracket
  | CloseBracket
deriving DecidableEq, Repr

/-- `PlayerAction` from action.rs (the movement-only catalog used by
`Level::check_valid` there). -/
inductive PlayerAction where
  | Walk
  | Climb
  | Drop
  | Idle
deriving DecidableEq, Repr

/-- `Animation` from action.rs.  The presentation closure `func` is dropped
(pure rendering data); the duration is kept in milliseconds. -/
structure Animation where
  final_offset : IVec2
  durationMs : Nat
deriving DecidableEq, Repr

/-- `Animation::final_offset(x_dir)` from action.rs: mirror the stored final
offset by the facing. -/
def Animation.finalOffset (a : Animation) (x_dir : Int) : IVec2 :=
  a.final_offset * ⟨x_dir, 1⟩

/-- `PlayerAction::squares` from action.rs: the squares in the order that
they are touched. -/
def PlayerAction.squares : PlayerAction → List IVec2
  | .Walk => [RIGHT]
  | .Climb => [UP, UP + RIGHT]
  | .Drop => [RIGHT, DOWN + RIGHT]
  | .Idle => []

/-- `PlayerAction::animation` from action.rs (final offsets and durations). -/
def PlayerAction.animation : PlayerAction → Animation
  | .Walk => ⟨RIGHT, 800⟩
  | .Climb => ⟨UP + RIGHT, 1100⟩
  | .Drop => ⟨DOWN + RIGHT, 1000⟩
  | .Idle => ⟨IVec2.zero, 1000⟩

/-- `Level` from level.rs.  `walls : HashSet<IVec2>` becomes a list queried
by membership, `unlocks : HashMap<IVec2, (Option<ScriptCommand>, usize)>`
becomes an association list. -/
structure Level where
  walls : List IVec2
  unlocks : List (IVec2 × (Option ScriptCommand × Nat))
  unlocked : List ScriptCommand
  command_count : Nat
  last_checkpoint : IVec2
deriving DecidableEq, Repr

/-- `Level::is_solid`: whether the position is solid terrain. -/
def Level.is_solid (level : Level) (pos : IVec2) : Bool :=
  decide (pos ∈ level.walls)

/-- `level.unlocks.get(&pos)` on the association-list model of the map. -/
def Level.unlock_get (level : Level) (pos : IVec2) : Option (Option ScriptCommand × Nat) :=
  (level.unlocks.find? (fun entry => decide (entry.1 = pos))).map (fun entry => entry.2)

/-- `Level::is_checkpoint`: whether the position is a checkpoint. -/
def Level.is_checkpoint (level : Level) (pos : IVec2) : Bool :=
  (level.unlock_get pos).isSome

/-- `Level::check_valid` from action.rs: all touched squares (mirrored by the
facing) must be free, and the cell below the mirrored final offset must be
solid. -/
def Level.check_valid (level : Level) (pos : IVec2) (action : PlayerAction)
    (x_dir : Int) : Option Animation :=
  if action.squares.all (fun square => !(level.is_solid (pos + square * ⟨x_dir, 1⟩))) then
    (Option.some action.animation).filter
      (fun anim => level.is_solid (pos + anim.finalOffset x_dir + DOWN))
  else
    none

/-- `AnimationResource` from animation.rs (asset handles and anchors
dropped; durations in milliseconds). -/
structure AnimationResource where
  squares : List IVec2
  durationMs : Nat
  frame_count : Nat
deriving DecidableEq, Repr

/-- `AnimationResource::final_offset(x_dir)` from animation.rs: the last
touched square (or zero) mirrored by the facing. -/
def AnimationResource.finalOffset (a : AnimationResource) (x_dir : Int) : IVec2 :=
  (a.squares.getLastD IVec2.zero) * ⟨x_dir, 1⟩

/-- `PlayerAssets` from animation.rs, restricted to the movement data. -/
structure PlayerAssets where
  idle : AnimationResource
  walk : AnimationResource
  climb : AnimationResource
  drop : AnimationResource
  jump : AnimationResource
  turn : AnimationResource
deriving DecidableEq, Repr

/-- The concrete `PlayerAssets` built by `FromWorld for PlayerAssets` in
animation.rs (square lists, durations, frame counts). -/
def playerAssets : PlayerAssets where
  idle := ⟨[], 260, 4⟩
  walk := ⟨[RIGHT], 800, 12⟩
  climb := ⟨[UP, UP + RIGHT], 730, 11⟩
  drop := ⟨[RIGHT, DOWN + RIGHT], 800, 12⟩
  jump := ⟨[RIGHT, UP, RIGHT + UP, RIGHT + UP + RIGHT], 730, 11⟩
  turn := ⟨[], 460, 7⟩

/-- `PlayerState` from player.rs, generic over the animation payload type
(the interpreter treats the animation returned by `check_valid` as opaque
data). -/
structure PlayerState (α : Type) where
  x_dir : Int
  animation : Option α
  sequence : List ScriptCommand
  cursor : Nat
  autoplay : Bool
deriving DecidableEq, Repr

/-- The mutable locals of one `action_interpreter` call: the scan cursor and
the facing. -/
structure InterpCfg where
  cursor : Nat
  x_dir : Int
deriving DecidableEq, Repr

/-- Backward scan of `find_matching_open_bracket` in player.rs: `j + 1` is
the loop variable, so indices `cursor - 1, cursor - 2, ..., 0` are examined;
when all are exhausted the fallback result is 0. -/
def findOpenGo (seq : List ScriptCommand) (count : Int) : Nat → Nat
  | 0 => 0
  | j + 1 =>
    match seq.getD j .Idle with
    | .CloseBracket => findOpenGo seq (count + 1) j
    | .OpenBracket => if count = 0 then j else findOpenGo seq (count - 1) j
    | _ => findOpenGo seq count j

/-- `find_matching_open_bracket` from player.rs. -/
def findMatchingOpenBracket (seq : List ScriptCommand) (cursor : Nat) : Nat :=
  findOpenGo seq 0 cursor

/-- Forward scan of `find_matching_close_bracket` in player.rs: walk the
remaining commands (`sequence.iter().enumerate().skip(cursor)`) with their
indices, keeping the nesting counter; on the matching close bracket the
result is one past it, modulo the sequence length; fallback 0. -/
def findCloseGo (seq : List ScriptCommand) : Int → Nat → List ScriptCommand → Nat
  | _, _, [] => 0
  | count, i, command :: rest =>
    match command with
    | .OpenBracket => findCloseGo seq (count + 1) (i + 1) rest
    | .CloseBracket =>
      if count = 0 then (i + 1) % seq.length
      else findCloseGo seq (count - 1) (i + 1) rest
    | _ => findCloseGo seq count (i + 1) rest

/-- `find_matching_close_bracket` from player.rs. -/
def findMatchingCloseBracket (seq : List ScriptCommand) (cursor : Nat) : Nat :=
  findCloseGo seq 0 cursor (seq.drop cursor)

/-- Outcome of one iteration of the `for` loop in `action_interpreter`:
either an early `return` (with the final cursor/facing and the returned
index and animation), or the next iteration's state. -/
inductive StepOut (α : Type) where
  | ret (cfg : InterpCfg) (index : Nat) (anim : Option α)
  | next (cfg : InterpCfg)

/-- One iteration of the `action_interpreter` loop body from player.rs.
`checkValid` stands for the `Level::check_valid(pos, command, x_dir,
assets)` call (its declaration is in a superseded revision of action.rs; the
interpreter only needs its result).  An open bracket is transparent, a close
bracket jumps back to one past its matching open bracket, a movement command
either commits (cursor one past it, facing flipped on `Turn`) or fails
(cursor jumped past the matching close bracket). -/
def interpStep (checkValid : IVec2 → ScriptCommand → Int → Option α) (pos : IVec2)
    (seq : List ScriptCommand) (cfg : InterpCfg) : StepOut α :=
  match seq.getD cfg.cursor .Idle with
  | .OpenBracket => .next ⟨(cfg.cursor + 1) % seq.length, cfg.x_dir⟩
  | .CloseBracket =>
    .next ⟨(findMatchingOpenBracket seq cfg.cursor + 1) % seq.length, cfg.x_dir⟩
  | command =>
    match checkValid pos command cfg.x_dir with
    | some anim =>
      .ret ⟨(cfg.cursor + 1) % seq.length,
            if command = .Turn then -cfg.x_dir else cfg.x_dir⟩
        cfg.cursor (some anim)
    | none => .ret ⟨findMatchingCloseBracket seq cfg.cursor, cfg.x_dir⟩ cfg.cursor none

/-- The bounded `for _ in 0..sequence.len()` loop of `action_interpreter`:
run at most `fuel` iterations; on fuel exhaustion return the current cursor
and no animation, as the final `(*cursor, None)` does. -/
def interpGo (checkValid : IVec2 → ScriptCommand → Int → Option α) (pos : IVec2)
    (seq : List ScriptCommand) : Nat → InterpCfg → InterpCfg × Nat × Option α
  | 0, cfg => (cfg, cfg.cursor, none)
  | fuel + 1, cfg =>
    match interpStep checkValid pos seq cfg with
    | .ret cfg' index anim => (cfg', index, anim)
    | .next cfg' => interpGo checkValid pos seq fuel cfg'

/-- `action_interpreter` from player.rs: on an empty sequence return index 0
and no animation leaving the state alone; otherwise run the bounded loop and
write the final cursor and facing back into the player state. -/
def action_interpreter (checkValid : IVec2 → ScriptCommand → Int → Option α)
    (state : PlayerState α) (pos : IVec2) : PlayerState α × Nat × Option α :=
  if state.sequence.isEmpty then (state, 0, none)
  else
    match interpGo checkValid pos state.sequence state.sequence.length
        ⟨state.cursor, state.x_dir⟩ with
    | (cfg, index, anim) =>
      ({ state with cursor := cfg.cursor, x_dir := cfg.x_dir }, index, anim)

/-- Pure bookkeeping for the termination claim: `interpIter k` applies `k`
non-returning loop iterations, yielding `none` as soon as some iteration
among the first `k` returns early. -/
def interpIter (checkValid : IVec2 → ScriptCommand → Int → Option α) (pos : IVec2)
    (seq : List ScriptCommand) : Nat → InterpCfg → Option InterpCfg
  | 0, cfg => some cfg
  | k + 1, cfg =>
    match interpStep checkValid pos seq cfg with
    | .ret _ _ _ => none
    | .next cfg' => interpIter checkValid pos seq k cfg'

/-- Number of loop iterations (script-slot visits) the bounded loop actually
performs before returning. -/
def interpVisits (checkValid : IVec2 → ScriptCommand → Int → Option α) (pos : IVec2)
    (seq : List ScriptCommand) : Nat → InterpCfg → Nat
  | 0, _ => 0
  | fuel + 1, cfg =>
    match interpStep checkValid pos seq cfg with
    | .ret _ _ _ => 1
    | .next cfg' => 1 + interpVisits checkValid pos seq fuel cfg'

/-- `EditorState` from editor.rs. -/
structure EditorState where
  enabled : Bool
  entered : List ScriptCommand
  cursor : Nat
deriving DecidableEq, Repr

/-- `calculate_bracket_balance` from editor.rs: open brackets count +1,
close brackets -1, scanned left to right (may go negative mid-scan). -/
def calculate_bracket_balance (script : List ScriptCommand) : Int :=
  script.foldl
    (fun balance command =>
      match command with
      | .OpenBracket => balance + 1
      | .CloseBracket => balance - 1
      | _ => balance)
    0

/-- The padded sequence built in `submit_script` (editor.rs): prepend
`max 0 (-balance)` open brackets and append `max 0 balance` close brackets
(`(bracket_balance..0)` and `(0..bracket_balance)` iterate that many
times). -/
def padSequence (entered : List ScriptCommand) : List ScriptCommand :=
  let balance := calculate_bracket_balance entered
  List.replicate (-balance).toNat .OpenBracket ++ entered ++
    List.replicate balance.toNat .CloseBracket

/-- `submit_script` from editor.rs as a function of the keyboard condition
and the three touched pieces of state.  The `ShowEditor` UI command is
rendering only and is dropped. -/
def submit_script (enter_pressed : Bool) (editor : EditorState)
    (player : PlayerState α) (level : Level) : EditorState × PlayerState α :=
  if !enter_pressed then (editor, player)
  else if editor.entered.isEmpty then (editor, player)
  else
    let new_sequence := padSequence editor.entered
    let editor := { editor with entered := new_sequence, cursor := new_sequence.length }
    if new_sequence.length > level.command_count then (editor, player)
    else
      ({ editor with enabled := false },
       { player with sequence := new_sequence, cursor := 0 })

/-- The state touched by the `respawn` system in player.rs: the player's
grid cell and committed next cell, the level progress record, the player
state, whether the editor is enabled, and whether a `Reset` event was
sent. -/
structure GameState (α : Type) where
  pos : IVec2
  next_pos : IVec2
  level : Level
  player : PlayerState α
  editor_enabled : Bool
  reset_sent : Bool
deriving DecidableEq, Repr

/-- The checkpoint branch of `respawn` (player.rs): record the new
checkpoint, merge a previously unseen unlocked command, raise the command
budget to the max of old and new.  The `.expect("unknown checkpoint")`
lookup is total here because the branch only runs on checkpoints. -/
def levelCheckpointUpdate (level : Level) (pos : IVec2) : Level :=
  let level := { level with last_checkpoint := pos }
  let entry := (level.unlock_get pos).getD (none, 0)
  let level :=
    match entry.1 with
    | some script_command =>
      if script_command ∈ level.unlocked then level
      else { level with unlocked := level.unlocked ++ [script_command] }
    | none => level
  { level with command_count := max level.command_count entry.2 }

/-- The `respawn` system from player.rs: detect obstacle collision, handle a
newly reached checkpoint (which also sets `collided`), and on an explicit
reset request or a collision restore position, facing, cursor and animation
and re-enable editing. -/
def respawn (input_r : Bool) (obstacles : List IVec2) (g : GameState α) :
    GameState α :=
  let collided := obstacles.any (fun o => decide (o = g.pos))
  let hit_checkpoint :=
    g.level.is_checkpoint g.pos && !(decide (g.level.last_checkpoint = g.pos))
  let level := if hit_checkpoint then levelCheckpointUpdate g.level g.pos else g.level
  let collided := collided || hit_checkpoint
  if input_r || collided then
    { g with
      pos := level.last_checkpoint
      next_pos := level.last_checkpoint
      level := level
      player := { g.player with x_dir := 1, cursor := 0, animation := none }
      editor_enabled := true
      reset_sent := true }
  else
    { g with level := level }

/-- `Obstacle` from obstacle.rs: the oscillation direction and the spawn
record kept for resets. -/
structure Obstacle where
  going_up : Bool
  spawn_pos : IVec2
  spawn_going_up : Bool
deriving DecidableEq, Repr

/-- The per-obstacle state touched by the `movement` system. -/
structure ObstacleState where
  grid : IVec2
  next_grid : IVec2
  obstacle : Obstacle
deriving DecidableEq, Repr

/-- One run of the obstacle `movement` system (obstacle.rs) for one
obstacle: `ticks` is the number of `TickStart` events read since the
previous run; if it is odd the next cell is committed one step in the
current direction and the direction flips; a reset snaps everything back to
the spawn record.  The trailing world-transform interpolation is rendering
only and is dropped. -/
def obstacleMovement (ticks : Nat) (reset : Bool) (s : ObstacleState) :
    ObstacleState :=
  let s :=
    if ticks % 2 = 1 then
      { s with
        next_grid := if s.obstacle.going_up then s.grid + UP else s.grid + DOWN
        obstacle := { s.obstacle with going_up := !s.obstacle.going_up } }
    else s
  if reset then
    { s with
      obstacle := { s.obstacle with going_up := s.obstacle.spawn_going_up }
      grid := s.obstacle.spawn_pos
      next_grid := s.obstacle.spawn_pos }
  else s

/-- A sequence of `movement` runs without resets, one entry per run, each
entry giving the number of tick-start events read by that run. -/
def obstacleRun (frames : List Nat) (s : ObstacleState) : ObstacleState :=
  frames.foldl (fun s ticks => obstacleMovement ticks false s) s

/-- The contribution of one command to the bracket balance. -/
def cmdDelta : ScriptCommand → Int
  | .OpenBracket => 1
  | .CloseBracket => -1
  | _ => 0

/-! Concrete inputs used to instantiate theorems that carry hypotheses. -/

/-- A validity oracle under which only `Walk` succeeds. -/
def walkOnlyCV : IVec2 → ScriptCommand → Int → Option Nat :=
  fun _ command _ => if command = .Walk then some 7 else none

/-- Player state holding the script `(cw)` used in the interpreter tests. -/
def scriptCWState : PlayerState Nat :=
  { x_dir := 1, animation := none
    sequence := [.OpenBracket, .Climb, .Walk, .CloseBracket]
    cursor := 0, autoplay := true }

/-- Player state holding the primitive-free script `()`. -/
def scriptLoopState : PlayerState Nat :=
  { x_dir := 1, animation := none
    sequence := [.OpenBracket, .CloseBracket]
    cursor := 0, autoplay := true }

/-- A level with a single checkpoint at the origin granting `Climb` and a
budget of 5 commands, with the origin already the respawn point. -/
def checkpointLevel : Level :=
  { walls := [⟨0, -1⟩]
    unlocks := [(⟨0, 0⟩, (some .Climb, 5))]
    unlocked := [.Walk]
    command_count := 1
    last_checkpoint := ⟨0, 0⟩ }

/-- A game state sitting on the `checkpointLevel` checkpoint. -/
def checkpointGame : GameState Nat :=
  { pos := ⟨0, 0⟩
    next_pos := ⟨0, 0⟩
    level := checkpointLevel
    player :=
      { x_dir := -1, animation := some 3, sequence := [.Walk], cursor := 1
        autoplay := true }
    editor_enabled := false
    reset_sent := false }

/-- The same game state but with the respawn point elsewhere, so the
checkpoint at the origin counts as newly reached. -/
def freshCheckpointGame : GameState Nat :=
  { checkpointGame with
    level := { checkpointLevel with last_checkpoint := ⟨9, 9⟩ } }

/-- An editor holding a single entered `Walk` command. -/
def walkEditor : EditorState :=
  { enabled := true, entered := [.Walk], cursor := 0 }

/-- A player state with an empty script, as at level start. -/
def emptyPlayer : PlayerState Nat :=
  { x_dir := 1, animation := none, sequence := [], cursor := 0, autoplay := true }

/-- A level whose command budget is zero, rejecting every submission. -/
def zeroBudgetLevel : Level :=
  { walls := [], unlocks := [], unlocked := [.Walk], command_count := 0
    last_checkpoint := ⟨0, 0⟩ }

/-- An obstacle state used for the tick-parity theorems. -/
def tickObstacle : ObstacleState :=
  { grid := ⟨2, 3⟩, next_grid := ⟨2, 3⟩
    obstacle := { going_up := true, spawn_pos := ⟨2, 3⟩, spawn_going_up := true } }

/-! ### Theorems -/

/-- Componentwise description of `IVec2` addition. -/
theorem IVec2.add_def (a b : IVec2) : a + b = ⟨a.x + b.x, a.y + b.y⟩ := rfl

/-- Componentwise description of `IVec2` multiplication. -/
theorem IVec2.mul_def (a b : IVec2) : a * b = ⟨a.x * b.x, a.y * b.y⟩ := rfl

/-- Claim C1: `check_valid` returns an animation exactly when every touched
square of the primitive, mirrored by multiplying its x-component by the
facing, is not solid, and the cell directly below the position plus the
mirrored final offset is solid; in every other case it returns nothing. -/
theorem check_valid_some_iff (level : Level) (pos : IVec2) (action : PlayerAction)
    (x_dir : Int) :
    (level.check_valid pos action x_dir).isSome = true ↔
      ((∀ square ∈ action.squares,
          level.is_solid (pos + square * ⟨x_dir, 1⟩) = false) ∧
        level.is_solid (pos + action.animation.finalOffset x_dir + DOWN) = true) := by
  unfold Level.check_valid
  by_cases h :
      (action.squares.all fun square =>
        !(level.is_solid (pos + square * ⟨x_dir, 1⟩))) = true
  · rw [if_pos h]
    rw [List.all_eq_true] at h
    constructor
    · intro hsome
      refine ⟨fun sq hsq => ?_, ?_⟩
      · have := h sq hsq
        rwa [Bool.not_eq_true'] at this
      · by_contra hg
        rw [Bool.not_eq_true] at hg
        simp [Option.filter, hg] at hsome
    · rintro ⟨-, hg⟩
      simp [Option.filter, hg]
  · rw [if_neg h]
    simp only [Option.isSome_none, Bool.false_eq_true, false_iff]
    rintro ⟨hall, -⟩
    exact h (List.all_eq_true.mpr fun sq hsq => by rw [Bool.not_eq_true', hall sq hsq])

/-- Claim C8: mirroring by the facing multiplies only the x-component, both
for the final displacement of an `Animation` (action.rs) and of an
`AnimationResource` (animation.rs), and for the position at which each
touched square is checked; y-components are never changed. -/
theorem mirror_multiplies_x_only (x_dir : Int) :
    (∀ a : Animation,
        a.finalOffset x_dir = ⟨a.final_offset.x * x_dir, a.final_offset.y⟩) ∧
      (∀ r : AnimationResource,
        r.finalOffset x_dir =
          ⟨(r.squares.getLastD IVec2.zero).x * x_dir,
            (r.squares.getLastD IVec2.zero).y⟩) ∧
      (∀ pos square : IVec2,
        pos + square * ⟨x_dir, 1⟩ = ⟨pos.x + square.x * x_dir, pos.y + square.y⟩) := by
  refine ⟨fun a => ?_, fun r => ?_, fun pos square => ?_⟩
  · simp [Animation.finalOffset, IVec2.mul_def]
  · simp [AnimationResource.finalOffset, IVec2.mul_def]
  · simp [IVec2.mul_def, IVec2.add_def]

/-- The bracket-balance fold is a sum of per-command contributions. -/
theorem calculate_bracket_balance_eq_sum (script : List ScriptCommand) :
    calculate_bracket_balance script = (script.map cmdDelta).sum := by
  unfold calculate_bracket_balance
  have step :
      ∀ (xs : List ScriptCommand) (b : Int),
        (xs.foldl
          (fun balance command =>
            match command with
            | .OpenBracket => balance + 1
            | .CloseBracket => balance - 1
            | _ => balance)
          b) = b + (xs.map cmdDelta).sum := by
    intro xs
    induction xs with
    | nil => intro b; simp
    | cons c xs ih =>
      intro b
      rw [List.foldl_cons, ih, List.map_cons, List.sum_cons]
      cases c <;> simp [cmdDelta] <;> ring
  rw [step]
  simp

/-- The bracket balance is additive over concatenation. -/
theorem calculate_bracket_balance_append (xs ys : List ScriptCommand) :
    calculate_bracket_balance (xs ++ ys) =
      calculate_bracket_balance xs + calculate_bracket_balance ys := by
  simp [calculate_bracket_balance_eq_sum]

/-- The bracket balance of a run of identical commands. -/
theorem calculate_bracket_balance_replicate (n : Nat) (c : ScriptCommand) :
    calculate_bracket_balance (List.replicate n c) = n * cmdDelta c := by
  simp [calculate_bracket_balance_eq_sum, List.map_replicate, mul_comm]

/-- Counterexample for claim C4: for the entered sequence `)(` the total
balance is already 0, so `submit_script` pads nothing, and the running
balance of the submitted script goes negative after its first command — the
submitted script is not well-nested. -/
theorem padded_script_running_balance_negative :
    padSequence [ScriptCommand.CloseBracket, ScriptCommand.OpenBracket] =
        [ScriptCommand.CloseBracket, ScriptCommand.OpenBracket] ∧
      calculate_bracket_balance
          ((padSequence [ScriptCommand.CloseBracket, ScriptCommand.OpenBracket]).take 1) =
        -1 := by
  decide

/-- Claim C4 (amended): submission prepends `max 0 (-balance)` open brackets
and appends `max 0 balance` close brackets, so the total balance of every
padded (and hence every submitted) script is exactly 0; the running balance
may still go negative mid-scan, so well-nestedness is not guaranteed. -/
theorem padded_script_balance_zero :
    (∀ entered : List ScriptCommand,
        calculate_bracket_balance (padSequence entered) = 0) ∧
      (∀ (α : Type) (enter_pressed : Bool) (editor : EditorState)
          (player : PlayerState α) (level : Level),
        (submit_script enter_pressed editor player level).2.sequence = player.sequence ∨
          (submit_script enter_pressed editor player level).2.sequence =
            padSequence editor.entered) := by
  constructor
  · intro entered
    unfold padSequence
    rw [calculate_bracket_balance_append, calculate_bracket_balance_append,
      calculate_bracket_balance_replicate, calculate_bracket_balance_replicate]
    simp only [cmdDelta]
    omega
  · intro α enter_pressed editor player level
    unfold submit_script
    split
    · exact Or.inl rfl
    · split
      · exact Or.inl rfl
      · dsimp only
        split
        · exact Or.inl rfl
        · exact Or.inr rfl

/-- Claim C10: a submission whose padded sequence exceeds the level's
command budget is rejected atomically: the player's executed sequence and
cursor are untouched and the editor's enabled flag keeps its value, while
the editor's entered buffer (shown by the UI) is updated to the padded
sequence with its cursor at the end. -/
theorem submit_over_budget_atomic (editor : EditorState) (player : PlayerState α)
    (level : Level) (hne : editor.entered ≠ [])
    (hlen : (padSequence editor.entered).length > level.command_count) :
    submit_script true editor player level =
      ({ editor with
          entered := padSequence editor.entered
          cursor := (padSequence editor.entered).length },
        player) := by
  unfold submit_script
  rw [if_neg (by simp)]
  rw [if_neg (by simpa [List.isEmpty_iff] using hne)]
  simp only []
  rw [if_pos hlen]

/-- Witness for claim C10: submitting the single command `w` against a level
with a zero command budget keeps the player untouched and editing enabled. -/
theorem submit_over_budget_atomic_witness :
    submit_script true walkEditor emptyPlayer zeroBudgetLevel =
      ({ walkEditor with entered := [ScriptCommand.Walk], cursor := 1 }, emptyPlayer) :=
  submit_over_budget_atomic walkEditor emptyPlayer zeroBudgetLevel (by decide)
    (by decide)

/-- A non-returning loop iteration never changes the facing. -/
theorem interpStep_next_x_dir {checkValid : IVec2 → ScriptCommand → Int → Option α}
    {pos : IVec2} {seq : List ScriptCommand} {cfg cfg' : InterpCfg}
    (h : interpStep checkValid pos seq cfg = .next cfg') : cfg'.x_dir = cfg.x_dir := by
  unfold interpStep at h
  split at h
  · cases h; rfl
  · cases h; rfl
  · split at h <;> cases h

/-- `k` non-returning loop iterations never change the facing. -/
theorem interpIter_x_dir {checkValid : IVec2 → ScriptCommand → Int → Option α}
    {pos : IVec2} {seq : List ScriptCommand} :
    ∀ (k : Nat) (cfg cfg' : InterpCfg),
      interpIter checkValid pos seq k cfg = some cfg' → cfg'.x_dir = cfg.x_dir := by
  intro k
  induction k with
  | zero =>
    intro cfg cfg' h
    simp [interpIter] at h
    rw [← h]
  | succ k ih =>
    intro cfg cfg' h
    unfold interpIter at h
    split at h
    · exact absurd h (by simp)
    · rename_i cfg2 heq
      exact (ih cfg2 cfg' h).trans (interpStep_next_x_dir heq)

/-- If the first `k` iterations do not return and iteration `k + 1` returns
early, the bounded loop with more than `k` iterations of fuel yields exactly
that early return. -/
theorem interpGo_early {checkValid : IVec2 → ScriptCommand → Int → Option α}
    {pos : IVec2} {seq : List ScriptCommand} :
    ∀ (k : Nat) (cfg cfg_k : InterpCfg) (fuel : Nat) (c : InterpCfg) (i : Nat)
      (a : Option α),
      interpIter checkValid pos seq k cfg = some cfg_k →
      k < fuel →
      interpStep checkValid pos seq cfg_k = .ret c i a →
      interpGo checkValid pos seq fuel cfg = (c, i, a) := by
  intro k
  induction k with
  | zero =>
    intro cfg cfg_k fuel c i a hiter hk hstep
    simp [interpIter] at hiter
    subst hiter
    cases fuel with
    | zero => omega
    | succ f => simp [interpGo, hstep]
  | succ k ih =>
    intro cfg cfg_k fuel c i a hiter hk hstep
    unfold interpIter at hiter
    split at hiter
    · exact absurd hiter (by simp)
    · rename_i cfg2 heq
      cases fuel with
      | zero => omega
      | succ f => simp [interpGo, heq, ih cfg2 cfg_k f c i a hiter (by omega) hstep]

/-- If no iteration among the first `fuel` returns early, the bounded loop
falls through and reports the scan cursor it ended on, with no animation. -/
theorem interpGo_full {checkValid : IVec2 → ScriptCommand → Int → Option α}
    {pos : IVec2} {seq : List ScriptCommand} :
    ∀ (fuel : Nat) (cfg cfg' : InterpCfg),
      interpIter checkValid pos seq fuel cfg = some cfg' →
      interpGo checkValid pos seq fuel cfg = (cfg', cfg'.cursor, none) := by
  intro fuel
  induction fuel with
  | zero =>
    intro cfg cfg' h
    simp [interpIter] at h
    subst h
    simp [interpGo]
  | succ f ih =>
    intro cfg cfg' h
    unfold interpIter at h
    split at h
    · exact absurd h (by simp)
    · rename_i cfg2 heq
      simp [interpGo, heq, ih cfg2 cfg' h]

/-- The loop performs at most `fuel` iterations. -/
theorem interpVisits_le_fuel {checkValid : IVec2 → ScriptCommand → Int → Option α}
    {pos : IVec2} {seq : List ScriptCommand} :
    ∀ (fuel : Nat) (cfg : InterpCfg), interpVisits checkValid pos seq fuel cfg ≤ fuel := by
  intro fuel
  induction fuel with
  | zero => intro cfg; simp [interpVisits]
  | succ f ih =>
    intro cfg
    unfold interpVisits
    split
    · omega
    · rename_i cfg2 heq
      have := ih cfg2
      omega

/-- Claim C2: if the first `k` scanned slots are brackets (no early return)
and the slot the scan then reaches holds a movement primitive whose validity
check fails, then `action_interpreter` returns that primitive's index with
no animation and leaves the player state with its cursor moved to one past
the matching close bracket of the enclosing scope (the forward
nesting-counter scan `findMatchingCloseBracket`); the facing is unchanged
and nothing after the skipped scope is scanned on this call. -/
theorem interpreter_failure_skips_scope
    (checkValid : IVec2 → ScriptCommand → Int → Option α)
    (state : PlayerState α) (pos : IVec2) (k : Nat) (cfg_k : InterpCfg)
    (hk : k < state.sequence.length)
    (hiter :
      interpIter checkValid pos state.sequence k ⟨state.cursor, state.x_dir⟩ =
        some cfg_k)
    (hno : state.sequence.getD cfg_k.cursor .Idle ≠ .OpenBracket)
    (hnc : state.sequence.getD cfg_k.cursor .Idle ≠ .CloseBracket)
    (hfail :
      checkValid pos (state.sequence.getD cfg_k.cursor .Idle) state.x_dir = none) :
    action_interpreter checkValid state pos =
      ({ state with
          cursor := findMatchingCloseBracket state.sequence cfg_k.cursor },
        cfg_k.cursor, none) := by
  have hx : cfg_k.x_dir = state.x_dir := interpIter_x_dir k _ cfg_k hiter
  rw [← hx] at hfail
  have hstep :
      interpStep checkValid pos state.sequence cfg_k =
        .ret ⟨findMatchingCloseBracket state.sequence cfg_k.cursor, cfg_k.x_dir⟩
          cfg_k.cursor none := by
    unfold interpStep
    cases hget : state.sequence.getD cfg_k.cursor .Idle <;> rw [hget] at hfail
    case OpenBracket => exact absurd hget hno
    case CloseBracket => exact absurd hget hnc
    all_goals simp [hfail]
  have hgo :=
    interpGo_early k ⟨state.cursor, state.x_dir⟩ cfg_k state.sequence.length _ _ _
      hiter hk hstep
  have hne : state.sequence ≠ [] := by
    intro he
    rw [he] at hk
    simp at hk
  unfold action_interpreter
  rw [if_neg (by simpa [List.isEmpty_iff] using hne)]
  rw [hgo, hx]

/-- Witness for claim C2: running the script `(cw)` from cursor 0 where
`Climb` fails, the interpreter reports index 1 with no animation and the
cursor lands one past the matching close bracket (index 0, wrapping). -/
theorem interpreter_failure_skips_scope_witness :
    action_interpreter walkOnlyCV scriptCWState ⟨0, 0⟩ =
      ({ scriptCWState with cursor := 0 }, 1, none) :=
  interpreter_failure_skips_scope walkOnlyCV scriptCWState ⟨0, 0⟩ 1 ⟨1, 1⟩
    (by decide) (by decide) (by decide) (by decide) (by decide)

/-- Claim C3: on a non-empty script of length `N` the interpreter's bounded
scan performs at most `N` slot visits, and if a full pass completes with no
early return (no committed action and no failed attempt), it returns the
cursor the scan ended on together with no animation instead of looping
forever. -/
theorem interpreter_bounded_termination
    (checkValid : IVec2 → ScriptCommand → Int → Option α)
    (state : PlayerState α) (pos : IVec2) (hne : state.sequence ≠ []) :
    interpVisits checkValid pos state.sequence state.sequence.length
        ⟨state.cursor, state.x_dir⟩ ≤ state.sequence.length ∧
      ∀ cfg' : InterpCfg,
        interpIter checkValid pos state.sequence state.sequence.length
            ⟨state.cursor, state.x_dir⟩ = some cfg' →
          action_interpreter checkValid state pos =
            ({ state with cursor := cfg'.cursor, x_dir := cfg'.x_dir },
              cfg'.cursor, none) := by
  refine ⟨interpVisits_le_fuel _ _, fun cfg' hiter => ?_⟩
  unfold action_interpreter
  rw [if_neg (by simpa [List.isEmpty_iff] using hne)]
  rw [interpGo_full state.sequence.length _ cfg' hiter]

/-- Witness for claim C3: the primitive-free script `()` makes a full pass
(2 visits, within the bound) and returns cursor 1 with no animation. -/
theorem interpreter_bounded_termination_witness :
    interpVisits walkOnlyCV ⟨0, 0⟩ scriptLoopState.sequence 2 ⟨0, 1⟩ ≤ 2 ∧
      action_interpreter walkOnlyCV scriptLoopState ⟨0, 0⟩ =
        ({ scriptLoopState with cursor := 1, x_dir := 1 }, 1, none) :=
  ⟨(interpreter_bounded_termination walkOnlyCV scriptLoopState ⟨0, 0⟩ (by decide)).1,
    (interpreter_bounded_termination walkOnlyCV scriptLoopState ⟨0, 0⟩ (by decide)).2
      ⟨1, 1⟩ (by decide)⟩

/-- Changing `last_checkpoint` does not affect unlock lookups. -/
theorem unlock_get_set_last (l : Level) (p q : IVec2) :
    Level.unlock_get { l with last_checkpoint := q } p = l.unlock_get p := rfl

/-- Field-level description of the checkpoint branch of `respawn`. -/
theorem levelCheckpointUpdate_eq (l : Level) (p : IVec2) :
    levelCheckpointUpdate l p =
      { l with
        last_checkpoint := p
        unlocked :=
          match ((l.unlock_get p).getD (none, 0)).1 with
          | some c =>
            if c ∈ l.unlocked then l.unlocked else l.unlocked ++ [c]
          | none => l.unlocked
        command_count := max l.command_count ((l.unlock_get p).getD (none, 0)).2 } := by
  unfold levelCheckpointUpdate
  dsimp only
  simp only [unlock_get_set_last]
  split
  · split <;> rfl
  · rfl

/-- Claim C5: after a respawn caused by an explicit reset request or by a
collision with an obstacle, the resting cell and the next cell both equal
the (possibly just updated) `last_checkpoint`, the facing is +1, the script
cursor is 0, no animation is in flight, and script editing is re-enabled. -/
theorem respawn_restores_checkpoint (input_r : Bool) (obstacles : List IVec2)
    (g : GameState α) (h : input_r = true ∨ g.pos ∈ obstacles) :
    (respawn input_r obstacles g).pos =
        (respawn input_r obstacles g).level.last_checkpoint ∧
      (respawn input_r obstacles g).next_pos =
        (respawn input_r obstacles g).level.last_checkpoint ∧
      (respawn input_r obstacles g).player.x_dir = 1 ∧
      (respawn input_r obstacles g).player.cursor = 0 ∧
      (respawn input_r obstacles g).player.animation = none ∧
      (respawn input_r obstacles g).editor_enabled = true := by
  unfold respawn
  dsimp only
  rcases h with h | h
  · rw [h]
    simp
  · have hany : (obstacles.any fun o => decide (o = g.pos)) = true :=
      List.any_eq_true.mpr ⟨g.pos, h, by simp⟩
    rw [hany]
    simp

/-- Witness for claim C5: an explicit reset on a concrete game state. -/
theorem respawn_restores_checkpoint_witness :
    (respawn true [] checkpointGame).pos =
        (respawn true [] checkpointGame).level.last_checkpoint ∧
      (respawn true [] checkpointGame).next_pos =
        (respawn true [] checkpointGame).level.last_checkpoint ∧
      (respawn true [] checkpointGame).player.x_dir = 1 ∧
      (respawn true [] checkpointGame).player.cursor = 0 ∧
      (respawn true [] checkpointGame).player.animation = none ∧
      (respawn true [] checkpointGame).editor_enabled = true :=
  respawn_restores_checkpoint true [] checkpointGame (Or.inl rfl)

/-- Claim C6: when the player already rests on the cell recorded as
`last_checkpoint`, another pass of the checkpoint logic changes neither
`last_checkpoint` nor the unlocked command list nor the command budget. -/
theorem checkpoint_revisit_idempotent (input_r : Bool) (obstacles : List IVec2)
    (g : GameState α) (_hcp : g.level.is_checkpoint g.pos = true)
    (hsame : g.level.last_checkpoint = g.pos) :
    (respawn input_r obstacles g).level.last_checkpoint = g.level.last_checkpoint ∧
      (respawn input_r obstacles g).level.unlocked = g.level.unlocked ∧
      (respawn input_r obstacles g).level.command_count = g.level.command_count := by
  have hhit :
      (g.level.is_checkpoint g.pos && !(decide (g.level.last_checkpoint = g.pos))) =
        false := by
    simp [hsame]
  unfold respawn
  dsimp only
  rw [hhit]
  simp only [Bool.false_eq_true, if_false, Bool.or_false]
  split <;> simp

/-- Witness for claim C6: revisiting the already-recorded checkpoint keeps
the progression record intact. -/
theorem checkpoint_revisit_idempotent_witness :
    (respawn false [] checkpointGame).level.last_checkpoint =
        checkpointGame.level.last_checkpoint ∧
      (respawn false [] checkpointGame).level.unlocked =
        checkpointGame.level.unlocked ∧
      (respawn false [] checkpointGame).level.command_count =
        checkpointGame.level.command_count :=
  checkpoint_revisit_idempotent false [] checkpointGame (by decide) (by decide)

/-- Claim C9: resting on a checkpoint that differs from `last_checkpoint`
records the progression (new `last_checkpoint`, idempotent unlock merge,
budget raised to the max) and, in the same pass, performs the full respawn
reset: position and next cell snap to the checkpoint, facing +1, cursor 0,
no animation, editing re-enabled. -/
theorem new_checkpoint_full_reset (input_r : Bool) (obstacles : List IVec2)
    (g : GameState α) (hcp : g.level.is_checkpoint g.pos = true)
    (hnew : g.level.last_checkpoint ≠ g.pos) :
    (respawn input_r obstacles g).level.last_checkpoint = g.pos ∧
      (respawn input_r obstacles g).pos = g.pos ∧
      (respawn input_r obstacles g).next_pos = g.pos ∧
      (respawn input_r obstacles g).player.x_dir = 1 ∧
      (respawn input_r obstacles g).player.cursor = 0 ∧
      (respawn input_r obstacles g).player.animation = none ∧
      (respawn input_r obstacles g).editor_enabled = true ∧
      (respawn input_r obstacles g).level.command_count =
        max g.level.command_count ((g.level.unlock_get g.pos).getD (none, 0)).2 ∧
      (respawn input_r obstacles g).level.unlocked =
        (match ((g.level.unlock_get g.pos).getD (none, 0)).1 with
          | some c =>
            if c ∈ g.level.unlocked then g.level.unlocked
            else g.level.unlocked ++ [c]
          | none => g.level.unlocked) := by
  have hhit :
      (g.level.is_checkpoint g.pos && !(decide (g.level.last_checkpoint = g.pos))) =
        true := by
    simp [hcp, hnew]
  unfold respawn
  dsimp only
  rw [hhit]
  simp [levelCheckpointUpdate_eq]

/-- Witness for claim C9: reaching the origin checkpoint from elsewhere
unlocks `Climb`, raises the budget to 5 and resets the player there. -/
theorem new_checkpoint_full_reset_witness :
    (respawn false [] freshCheckpointGame).level.last_checkpoint =
        freshCheckpointGame.pos ∧
      (respawn false [] freshCheckpointGame).pos = freshCheckpointGame.pos ∧
      (respawn false [] freshCheckpointGame).next_pos = freshCheckpointGame.pos ∧
      (respawn false [] freshCheckpointGame).player.x_dir = 1 ∧
      (respawn false [] freshCheckpointGame).player.cursor = 0 ∧
      (respawn false [] freshCheckpointGame).player.animation = none ∧
      (respawn false [] freshCheckpointGame).editor_enabled = true ∧
      (respawn false [] freshCheckpointGame).level.command_count =
        max freshCheckpointGame.level.command_count
          ((freshCheckpointGame.level.unlock_get freshCheckpointGame.pos).getD
              (none, 0)).2 ∧
      (respawn false [] freshCheckpointGame).level.unlocked =
        (match
            ((freshCheckpointGame.level.unlock_get freshCheckpointGame.pos).getD
                (none, 0)).1 with
          | some c =>
            if c ∈ freshCheckpointGame.level.unlocked then
              freshCheckpointGame.level.unlocked
            else freshCheckpointGame.level.unlocked ++ [c]
          | none => freshCheckpointGame.level.unlocked) :=
  new_checkpoint_full_reset false [] freshCheckpointGame (by decide) (by decide)

/-- Counterexample for claim C7: two consecutive tick-start events (one per
`movement` run, the normal delivery) each flip the obstacle's direction —
after the first event the direction has flipped and after the second it is
back to the original, whereas flipping only on every other tick-start event
would leave at most one flip after two events. -/
theorem obstacle_flips_every_tick_start :
    (obstacleRun [1] tickObstacle).obstacle.going_up = false ∧
      (obstacleRun [1] tickObstacle).next_grid = tickObstacle.grid + UP ∧
      (obstacleRun [1, 1] tickObstacle).obstacle.going_up = true := by
  decide

/-- Claim C7 (amended): a `movement` run flips each obstacle's direction and
commits its next cell exactly when the number of tick-start events it read
since the previous run is odd (so with the usual one event per tick, every
tick-start flips it); with an even count and no reset the obstacle state is
untouched.  The update depends only on the tick-start/reset signals, never
on the avatar's script. -/
theorem obstacle_parity_step (ticks : Nat) (s : ObstacleState) :
    (ticks % 2 = 1 →
        obstacleMovement ticks false s =
          { s with
            next_grid := if s.obstacle.going_up then s.grid + UP else s.grid + DOWN
            obstacle := { s.obstacle with going_up := !s.obstacle.going_up } }) ∧
      (ticks % 2 = 0 → obstacleMovement ticks false s = s) := by
  constructor
  · intro h
    simp [obstacleMovement, h]
  · intro h
    simp [obstacleMovement, h]

/-- Witness for claim C7 (amended): one tick-start event flips the concrete
obstacle and commits the cell above it; an even event count leaves it
unchanged. -/
theorem obstacle_parity_step_witness :
    obstacleMovement 1 false tickObstacle =
        { tickObstacle with
          next_grid :=
            if tickObstacle.obstacle.going_up then tickObstacle.grid + UP
            else tickObstacle.grid + DOWN
          obstacle :=
            { tickObstacle.obstacle with
              going_up := !tickObstacle.obstacle.going_up } } ∧
      obstacleMovement 2 false tickObstacle = tickObstacle :=
  ⟨(obstacle_parity_step 1 tickObstacle).1 rfl,
    (obstacle_parity_step 2 tickObstacle).2 rfl⟩

end Gmtk
